import Mathlib

/-!
Verification of the FileTransfer repository (src/file_transfer.py).

The program is shallowly embedded: byte strings are `List Nat` (each entry a
byte value), the filesystem is an association list from filenames to file
contents, and every socket read/write is explicit.  Python `str` values are
modelled by their UTF-8 encodings (a `List Nat`); `str.encode`/`bytes.decode`
are then the identity, which is faithful for all round-trip properties since
UTF-8 decoding inverts encoding (a `UnicodeDecodeError` on invalid UTF-8 is
not modelled; no property below depends on it).

Two models of reading are used:
* `recv_all` (with its helpers `recvChunk`, `recvAllLoop`) is the direct
  translation of the source's `recv_all`, over a socket modelled as a list of
  data chunks that successive `sock.recv` calls deliver, with explicit fuel
  (`none` = the loop has not returned within the given number of iterations).
* `recvAllIdeal` is the semantics of the source's `recv_all` in the setting
  used by all protocol-level functions: each side of a flow completes all of
  its writes for a phase before the peer reads them, so when a read starts,
  the peer's whole transmission is already buffered and `sock.recv(n)`
  returns `min(n, available)` bytes.  Under that assumption `recv_all`
  returns exactly the first `n` buffered bytes when `n` of them exist, blocks
  forever when fewer exist, and raises (`ValueError`) when `n` is negative.
-/

namespace FileTransfer

/-- A byte string: a list of byte values. -/
abbrev Bytes := List Nat

/-- Server-side (or client-side) file storage: an association list from
filenames to file contents, modelling the directory the program runs in. -/
abbrev Storage := List (Bytes × Bytes)

/-- Look a filename up in storage (models `os.path.isfile` + `read_file`). -/
def lookupFile : Storage → Bytes → Option Bytes
  | [], _ => none
  | (n, d) :: rest, name => if n = name then some d else lookupFile rest name

/-- Write a file to storage, overwriting any existing file of the same name
(models `save_file`, i.e. `open(filename, 'wb')`). -/
def setFile : Storage → Bytes → Bytes → Storage
  | [], name, data => [(name, data)]
  | (n, d) :: rest, name, data =>
      if n = name then (name, data) :: rest else (n, d) :: setFile rest name data

/-- The four little-endian base-256 digits of a machine word below 2^32. -/
def toBytes32 (m : Nat) : Bytes :=
  [m % 256, m / 256 % 256, m / 65536 % 256, m / 16777216 % 256]

/-- Recombine four little-endian base-256 digits into a machine word. -/
def fromBytes32 (bs : Bytes) : Nat :=
  bs.getD 0 0 + 256 * bs.getD 1 0 + 65536 * bs.getD 2 0 + 16777216 * bs.getD 3 0

/-- The four bytes produced by `struct.pack('<i', n)` for an in-range `n`
(little-endian two's complement). -/
def i32le (n : Int) : Bytes := toBytes32 (n % 4294967296).toNat

/-- The value of `struct.unpack('<i', bs)[0]` on a 4-byte string `bs`
(little-endian two's complement). -/
def unpack_i32 (bs : Bytes) : Int :=
  if fromBytes32 bs < 2147483648 then (fromBytes32 bs : Int)
  else (fromBytes32 bs : Int) - 4294967296

/-- Model of `struct.pack('<i', n)`: `none` when `n` is out of the signed
32-bit range (Python raises `struct.error` there). -/
def pack_i32 (n : Int) : Option Bytes :=
  if 2147483648 ≤ n then none
  else if n < -2147483648 then none
  else some (i32le n)

/-- The value of `struct.unpack('<?', bs)[0]` on a 1-byte string: any nonzero
byte decodes to `True`. -/
def unpack_bool (bs : Bytes) : Bool :=
  match bs with
  | [b] => b != 0
  | _ => false

/-- Model of `send_bool` from the source: `struct.pack('<?', b)` then
`sendall`, producing a single byte. -/
def send_bool (b : Bool) : Bytes := if b then [1] else [0]

/-- Outcome of one receive in the ideal phase-complete setting. -/
inductive RX (α : Type) where
  | ok (a : α) (rest : Bytes)
  | exn
  | hang
deriving DecidableEq

/-- Status of a handler run: finished normally, raised a Python exception, or
blocked forever in a receive. -/
inductive St where
  | ok
  | exn
  | hang
deriving DecidableEq

/-- Semantics of the source's `recv_all(sock, n)` when the peer's whole
transmission `s` is already buffered (see the file comment): exactly the
first `n` bytes when they exist, blocked forever when fewer exist, and a
`ValueError` from `sock.recv` when `n` is negative. -/
def recvAllIdeal (s : Bytes) (n : Int) : RX Bytes :=
  if n < 0 then .exn
  else if n.toNat ≤ s.length then .ok (s.take n.toNat) (s.drop n.toNat)
  else .hang

/-- Model of the source's `recv_str`: read a 4-byte length, then that many
bytes (decoding is the identity, see the file comment).  A negative length is
passed to `sock.recv`, which raises. -/
def recv_str (s : Bytes) : RX Bytes :=
  match recvAllIdeal s 4 with
  | .ok lb s1 => recvAllIdeal s1 (unpack_i32 lb)
  | .exn => .exn
  | .hang => .hang

/-- The `for i in range(length)` loop body of the source's `recv_str_list`:
read `n` strings in order. -/
def recvStrs : Nat → Bytes → RX (List Bytes)
  | 0, s => .ok [] s
  | n + 1, s =>
    match recv_str s with
    | .ok x s1 =>
      match recvStrs n s1 with
      | .ok xs s2 => .ok (x :: xs) s2
      | .exn => .exn
      | .hang => .hang
    | .exn => .exn
    | .hang => .hang

/-- Model of the source's `recv_str_list`: read a 4-byte count, then that many
strings.  `Int.toNat` of a negative count is `0`, exactly as Python's
`range(length)` runs zero iterations for a negative `length`. -/
def recv_str_list (s : Bytes) : RX (List Bytes) :=
  match recvAllIdeal s 4 with
  | .ok cb s1 => recvStrs (unpack_i32 cb).toNat s1
  | .exn => .exn
  | .hang => .hang

/-- Model of the source's `send_str`: pack the byte length with `'<i'`
(raising on overflow, hence `Option`) and prepend it to the encoded string. -/
def send_str (s : Bytes) : Option Bytes :=
  (pack_i32 (s.length : Int)).map (fun lb => lb ++ s)

/-- The per-element loop of the source's `send_str_list`: the bytes actually
written, and whether every `send_str` succeeded (a failing pack raises after
the earlier strings were already sent). -/
def sendStrs : List Bytes → Bytes × Bool
  | [] => ([], true)
  | x :: xs =>
    match send_str x with
    | none => ([], false)
    | some b =>
      let r := sendStrs xs
      (b ++ r.1, r.2)

/-- Model of the source's `send_str_list`: pack and send the list length,
then send each string with `send_str`. -/
def send_str_list (strs : List Bytes) : Bytes × Bool :=
  match pack_i32 (strs.length : Int) with
  | none => ([], false)
  | some cb =>
    let r := sendStrs strs
    (cb ++ r.1, r.2)

/-- A message printed by the client. -/
inductive Msg where
  | wrongVersion
  | notFound (name : Bytes)
deriving DecidableEq

/-- Observable result of a `get_files` run: the bytes the client sent, the
local files it saved (in order, with contents), the messages it printed, and
how the run ended. -/
structure GetR where
  sent : Bytes
  saved : List (Bytes × Bytes)
  msgs : List Msg
  status : St
deriving DecidableEq

/-- The per-filename receive loop of the source's `get_files`. -/
def getLoop : List Bytes → Bytes → List (Bytes × Bytes) × List Msg × St
  | [], _ => ([], [], .ok)
  | f :: rest, s =>
    match recvAllIdeal s 1 with
    | .exn => ([], [], .exn)
    | .hang => ([], [], .hang)
    | .ok fb s1 =>
      if unpack_bool fb then
        match recvAllIdeal s1 4 with
        | .exn => ([], [], .exn)
        | .hang => ([], [], .hang)
        | .ok szb s2 =>
          match recvAllIdeal s2 (unpack_i32 szb) with
          | .exn => ([], [], .exn)
          | .hang => ([], [], .hang)
          | .ok data s3 =>
            let r := getLoop rest s3
            ((f, data) :: r.1, r.2.1, r.2.2)
      else
        let r := getLoop rest s1
        (r.1, Msg.notFound f :: r.2.1, r.2.2)

/-- Model of the source's `get_files`, run against the byte stream `server`
sent by the server: read the version, abort with a message if it is not 1,
otherwise send the direction flag and the filename list and run the receive
loop. -/
def get_files (server : Bytes) (filenames : List Bytes) : GetR :=
  match recvAllIdeal server 4 with
  | .exn => ⟨[], [], [], .exn⟩
  | .hang => ⟨[], [], [], .hang⟩
  | .ok vb s =>
    if unpack_i32 vb ≠ 1 then ⟨[], [], [Msg.wrongVersion], .ok⟩
    else
      let sl := send_str_list filenames
      if sl.2 then
        let r := getLoop filenames s
        ⟨send_bool true ++ sl.1, r.1, r.2.1, r.2.2⟩
      else ⟨send_bool true ++ sl.1, [], [], .exn⟩

/-- Observable result of a `put_files` run: the bytes the client sent, the
local files it read (in order), the messages it printed, and how it ended. -/
structure PutR where
  sent : Bytes
  readFiles : List Bytes
  msgs : List Msg
  status : St
deriving DecidableEq

/-- The per-filename send loop of the source's `put_files`: read the local
file, send its name, its packed size and its bytes. -/
def putLoop : Storage → List Bytes → Bytes × List Bytes × St
  | _, [] => ([], [], .ok)
  | fs, f :: rest =>
    match lookupFile fs f with
    | none => ([], [], .exn)
    | some data =>
      match send_str f, pack_i32 (data.length : Int) with
      | some nb, some lb =>
        let r := putLoop fs rest
        (nb ++ lb ++ data ++ r.1, f :: r.2.1, r.2.2)
      | some nb, none => (nb, [f], .exn)
      | none, _ => ([], [f], .exn)

/-- Model of the source's `put_files`, with the client's local directory
`localFS` and the byte stream `server` sent by the server: read the version,
abort with a message if it is not 1, otherwise send the direction flag, the
bare packed file count, and each file. -/
def put_files (localFS : Storage) (server : Bytes) (filenames : List Bytes) : PutR :=
  match recvAllIdeal server 4 with
  | .exn => ⟨[], [], [], .exn⟩
  | .hang => ⟨[], [], [], .hang⟩
  | .ok vb _ =>
    if unpack_i32 vb ≠ 1 then ⟨[], [], [Msg.wrongVersion], .ok⟩
    else
      match pack_i32 (filenames.length : Int) with
      | none => ⟨send_bool false, [], [], .exn⟩
      | some cb =>
        let r := putLoop localFS filenames
        ⟨send_bool false ++ cb ++ r.1, r.2.1, [], r.2.2⟩

/-- Observable result of a `server_handle_request` run: the server storage
afterwards, the bytes the server sent, and how the run ended. -/
structure SrvOut where
  st : Storage
  sent : Bytes
  status : St
deriving DecidableEq

/-- The get-direction loop of the source's `server_handle_request`, exactly
as written: for an existing file it sends `True`, the packed length and the
bytes; for a missing file the source's loop has no `else` branch, so nothing
at all is sent for that filename. -/
def serverGetLoop (fs : Storage) : List Bytes → Bytes × St
  | [] => ([], .ok)
  | f :: rest =>
    match lookupFile fs f with
    | some data =>
      match pack_i32 (data.length : Int) with
      | some lb =>
        let r := serverGetLoop fs rest
        (send_bool true ++ lb ++ data ++ r.1, r.2)
      | none => (send_bool true, .exn)
    | none => serverGetLoop fs rest

/-- The put-direction loop of the source's `server_handle_request`: read a
filename, a size and that many bytes, and save the file, `count` times. -/
def serverPutLoop : Storage → Nat → Bytes → Storage × St
  | fs, 0, _ => (fs, .ok)
  | fs, n + 1, s =>
    match recv_str s with
    | .exn => (fs, .exn)
    | .hang => (fs, .hang)
    | .ok name s1 =>
      match recvAllIdeal s1 4 with
      | .exn => (fs, .exn)
      | .hang => (fs, .hang)
      | .ok szb s2 =>
        match recvAllIdeal s2 (unpack_i32 szb) with
        | .exn => (fs, .exn)
        | .hang => (fs, .hang)
        | .ok data s3 => serverPutLoop (setFile fs name data) n s3

/-- Model of the source's `server_handle_request`, run on server storage `fs`
against the byte stream `client` sent by the client: send the version, read
the direction flag, then run the get- or put-direction branch. -/
def server_handle_request (fs : Storage) (client : Bytes) : SrvOut :=
  let ver := i32le 1
  match recvAllIdeal client 1 with
  | .exn => ⟨fs, ver, .exn⟩
  | .hang => ⟨fs, ver, .hang⟩
  | .ok fb s =>
    if unpack_bool fb then
      match recv_str_list s with
      | .exn => ⟨fs, ver, .exn⟩
      | .hang => ⟨fs, ver, .hang⟩
      | .ok filenames _ =>
        let r := serverGetLoop fs filenames
        ⟨fs, ver ++ r.1, r.2⟩
    else
      match recvAllIdeal s 4 with
      | .exn => ⟨fs, ver, .exn⟩
      | .hang => ⟨fs, ver, .hang⟩
      | .ok cb s1 =>
        let r := serverPutLoop fs (unpack_i32 cb).toNat s1
        ⟨r.1, ver, r.2⟩

/-- A composed get session: the client's direction flag and filename-list
bytes are handed to the server, and the server's response bytes are handed to
the client's `get_files`. -/
def getSession (fs : Storage) (filenames : List Bytes) : SrvOut × GetR :=
  let srv := server_handle_request fs (send_bool true ++ (send_str_list filenames).1)
  (srv, get_files srv.sent filenames)

/-- One observable event per accepted connection in `run_server`. -/
inductive ConnEvent where
  | served (sent : Bytes)
  | errorPrinted
  | blocked
deriving DecidableEq

/-- Model of the source's `run_server`, for a given arrival schedule of
client byte streams: each connection is handled in turn; an exception is
caught by the `except` clause, printed, and the loop continues; a handler
blocked forever in a receive stops the loop from ever reaching the next
connection. -/
def run_server : Storage → List Bytes → List ConnEvent × Storage
  | fs, [] => ([], fs)
  | fs, c :: cs =>
    let r := server_handle_request fs c
    match r.status with
    | .ok =>
      let rest := run_server r.st cs
      (.served r.sent :: rest.1, rest.2)
    | .exn =>
      let rest := run_server r.st cs
      (.errorPrinted :: rest.1, rest.2)
    | .hang => ([.blocked], r.st)

/-- One `sock.recv(n)` call on a socket modelled as the list of data chunks
the kernel will deliver: at most `n` bytes from the first chunk, the rest of
that chunk staying buffered; an empty chunk list is a closed connection, on
which `recv` returns an empty byte string. -/
def recvChunk (n : Nat) : List Bytes → Bytes × List Bytes
  | [] => ([], [])
  | c :: cs => if c.length ≤ n then (c, cs) else (c.take n, c.drop n :: cs)

/-- The `while len(data) != num_bytes` loop of the source's `recv_all`, with
fuel: `none` means the loop has not returned within `fuel` iterations.  Note
the loop asks `sock.recv` for `num_bytes` more bytes regardless of how many
it already holds, exactly as the source does. -/
def recvAllLoop : Nat → Bytes → Nat → List Bytes → Option (Bytes × List Bytes)
  | 0, _, _, _ => none
  | fuel + 1, data, numBytes, chunks =>
    if data.length = numBytes then some (data, chunks)
    else
      let r := recvChunk numBytes chunks
      recvAllLoop fuel (data ++ r.1) numBytes r.2

/-- Direct translation of the source's `recv_all(sock, num_bytes)` over a
chunked socket: one initial `recv`, then the while loop. -/
def recv_all (fuel : Nat) (numBytes : Nat) (chunks : List Bytes) :
    Option (Bytes × List Bytes) :=
  let r := recvChunk numBytes chunks
  recvAllLoop fuel r.1 numBytes r.2

/-- The on-wire encoding `send_str` produces for an in-range string: packed
byte length, then the bytes. -/
def strEnc (s : Bytes) : Bytes := i32le (s.length : Int) ++ s

/-- The on-wire bytes the put flow carries for one file: packed filename
length, filename, packed content length, content. -/
def putFileBytes (name data : Bytes) : Bytes :=
  i32le (name.length : Int) ++ name ++ i32le (data.length : Int) ++ data

theorem fromBytes32_toBytes32 (m : Nat) (h : m < 4294967296) :
    fromBytes32 (toBytes32 m) = m := by
  simp only [toBytes32, fromBytes32, List.getD_cons_zero, List.getD_cons_succ]
  omega

theorem i32le_length (n : Int) : (i32le n).length = 4 := rfl

theorem unpack_i32_i32le (n : Int) (h1 : -2147483648 ≤ n) (h2 : n < 2147483648) :
    unpack_i32 (i32le n) = n := by
  have hm : (n % 4294967296).toNat < 4294967296 := by omega
  simp only [unpack_i32, i32le, fromBytes32_toBytes32 _ hm]
  split <;> omega

theorem recvAllIdeal_append (a b : Bytes) :
    recvAllIdeal (a ++ b) (a.length : Int) = .ok a b := by
  simp [recvAllIdeal, List.take_left, List.drop_left]

theorem recvAllIdeal_i32 (v : Int) (rest : Bytes) :
    recvAllIdeal (i32le v ++ rest) 4 = .ok (i32le v) rest := by
  have h := recvAllIdeal_append (i32le v) rest
  rwa [i32le_length] at h

theorem recvAllIdeal_one (b : Nat) (rest : Bytes) :
    recvAllIdeal (b :: rest) 1 = .ok [b] rest := by
  have h := recvAllIdeal_append [b] rest
  simpa using h

theorem pack_i32_nat (n : Nat) (h : n < 2147483648) :
    pack_i32 (n : Int) = some (i32le (n : Int)) := by
  rw [pack_i32, if_neg (by omega), if_neg (by omega)]

theorem unpack_i32_natCast (n : Nat) (h : n < 2147483648) :
    unpack_i32 (i32le (n : Int)) = (n : Int) :=
  unpack_i32_i32le _ (by omega) (by exact_mod_cast h)

theorem send_str_eq (s : Bytes) (h : s.length < 2147483648) :
    send_str s = some (strEnc s) := by
  rw [send_str, pack_i32_nat s.length h]
  rfl

theorem recv_str_enc (s rest : Bytes) (h : s.length < 2147483648) :
    recv_str (i32le (s.length : Int) ++ (s ++ rest)) = .ok s rest := by
  simp only [recv_str, recvAllIdeal_i32, unpack_i32_natCast s.length h]
  exact recvAllIdeal_append s rest

theorem sendStrs_eq (L : List Bytes) (h : ∀ s ∈ L, s.length < 2147483648) :
    sendStrs L = ((L.map strEnc).flatten, true) := by
  induction L with
  | nil => rfl
  | cons x xs ih =>
    simp only [sendStrs, send_str_eq x (h x (by simp)),
      ih (fun s hs => h s (by simp [hs])), List.map_cons, List.flatten_cons]

theorem send_str_list_eq (L : List Bytes) (hc : L.length < 2147483648)
    (h : ∀ s ∈ L, s.length < 2147483648) :
    send_str_list L = (i32le (L.length : Int) ++ (L.map strEnc).flatten, true) := by
  simp only [send_str_list, pack_i32_nat L.length hc, sendStrs_eq L h]

theorem recvStrs_flatten (L : List Bytes) (tail : Bytes)
    (h : ∀ s ∈ L, s.length < 2147483648) :
    recvStrs L.length ((L.map strEnc).flatten ++ tail) = .ok L tail := by
  induction L with
  | nil => simp [recvStrs]
  | cons x xs ih =>
    have hx := h x (by simp)
    simp only [List.map_cons, List.flatten_cons, List.length_cons, List.append_assoc]
    simp only [recvStrs, strEnc, List.append_assoc, recv_str_enc x _ hx,
      ih (fun s hs => h s (by simp [hs]))]

theorem lookupFile_setFile (st : Storage) (n d x : Bytes) :
    lookupFile (setFile st n d) x = if n = x then some d else lookupFile st x := by
  induction st with
  | nil =>
    simp only [setFile, lookupFile]
  | cons p rest ih =>
    obtain ⟨pn, pd⟩ := p
    by_cases hpn : pn = n
    · subst hpn
      by_cases hx : pn = x <;> simp [setFile, lookupFile, hx]
    · by_cases hx : pn = x
      · subst hx
        have hn : ¬(n = pn) := fun h => hpn h.symm
        simp [setFile, hpn, lookupFile, hn]
      · simp [setFile, hpn, lookupFile, hx, ih]

theorem lookupFile_foldl_set (g : Bytes → Bytes) (l : List Bytes) :
    ∀ (acc : Storage) (x : Bytes),
    lookupFile (l.foldl (fun a f => setFile a f (g f)) acc) x =
      if x ∈ l then some (g x) else lookupFile acc x := by
  induction l with
  | nil => intro acc x; simp
  | cons f rest ih =>
    intro acc x
    simp only [List.foldl_cons, ih, lookupFile_setFile, List.mem_cons]
    by_cases hx : x ∈ rest
    · simp [hx]
    · by_cases hfx : f = x
      · subst hfx
        simp [hx]
      · have hxf : ¬(x = f) := fun h => hfx h.symm
        simp [hx, hfx, hxf]

theorem serverPutLoop_parses (g : Bytes → Bytes) (files : List Bytes) :
    ∀ (acc : Storage) (tail : Bytes),
    (∀ f ∈ files, f.length < 2147483648 ∧ (g f).length < 2147483648) →
    serverPutLoop acc files.length
        ((files.map (fun f => putFileBytes f (g f))).flatten ++ tail) =
      (files.foldl (fun a f => setFile a f (g f)) acc, St.ok) := by
  induction files with
  | nil => intro acc tail _; rfl
  | cons f rest ih =>
    intro acc tail h
    obtain ⟨hf, hgf⟩ := h f (by simp)
    have hstream :
        ((f :: rest).map (fun f => putFileBytes f (g f))).flatten ++ tail =
          i32le (f.length : Int) ++ (f ++ (i32le ((g f).length : Int) ++
            ((g f) ++ ((rest.map (fun f => putFileBytes f (g f))).flatten ++ tail)))) := by
      simp [putFileBytes, List.append_assoc]
    rw [List.length_cons, hstream]
    show serverPutLoop acc (rest.length + 1) _ = _
    simp only [serverPutLoop, recv_str_enc f _ hf, recvAllIdeal_i32,
      unpack_i32_natCast (g f).length hgf, recvAllIdeal_append]
    rw [ih (setFile acc f (g f)) tail (fun x hx => h x (by simp [hx]))]
    simp

theorem putLoop_eq (fs : Storage) (files : List Bytes)
    (h : ∀ f ∈ files, (lookupFile fs f).isSome ∧ f.length < 2147483648 ∧
        ((lookupFile fs f).getD []).length < 2147483648) :
    putLoop fs files =
      ((files.map (fun f => putFileBytes f ((lookupFile fs f).getD []))).flatten,
        files, St.ok) := by
  induction files with
  | nil => rfl
  | cons f rest ih =>
    obtain ⟨hsome, hf, hd⟩ := h f (by simp)
    obtain ⟨d, hdeq⟩ := Option.isSome_iff_exists.mp hsome
    rw [hdeq] at hd
    simp only [Option.getD_some] at hd
    simp only [putLoop, hdeq, send_str_eq f hf, pack_i32_nat d.length hd,
      ih (fun x hx => h x (by simp [hx])), List.map_cons, List.flatten_cons]
    simp [strEnc, putFileBytes, hdeq, List.append_assoc]

theorem recvAllLoop_overrun (numBytes : Nat) :
    ∀ (fuel : Nat) (data : Bytes) (chunks : List Bytes), numBytes < data.length →
    recvAllLoop fuel data numBytes chunks = none := by
  intro fuel
  induction fuel with
  | zero => intro data chunks _; rfl
  | succ n ih =>
    intro data chunks h
    simp only [recvAllLoop]
    rw [if_neg (by omega)]
    apply ih
    simp only [List.length_append]
    omega

theorem recvAllLoop_closed (numBytes : Nat) :
    ∀ (fuel : Nat) (data : Bytes), data.length ≠ numBytes →
    recvAllLoop fuel data numBytes [] = none := by
  intro fuel
  induction fuel with
  | zero => intro data _; rfl
  | succ n ih =>
    intro data h
    simp only [recvAllLoop, recvChunk]
    rw [if_neg h]
    simpa using ih data h

/-- C1: the claim says that in the get flow the server writes an existence
flag for every requested filename, a false flag included when the file is
missing.  The code does not: its loop has no else branch, so for a missing
file nothing is written at all.  Here the server holds only a file `[97]`
and the client requests the single missing filename `[98]` (direction byte 1
followed by the `send_str_list` framing of `[[98]]`): the server's entire
output is the 4 version bytes `[1, 0, 0, 0]` — no false flag follows. -/
theorem c1_no_flag_for_missing_file :
    server_handle_request [([97], [120])] ([1] ++ (send_str_list [[98]]).1) =
      ⟨[([97], [120])], [1, 0, 0, 0], St.ok⟩ := by decide

/-- C2: the claim says `recv_all` returns exactly `n` bytes, consumes no
bytes beyond the first `n`, and raises `ConnectionError` instead of looping
forever when the stream closes early.  The code has neither property: on a
closed stream (`recv` keeps returning an empty byte string) the loop never
terminates for any amount of fuel, and when 2 bytes are requested but the
data arrives as a 1-byte chunk followed by a 3-byte chunk, the loop asks
`recv` for `num_bytes` more bytes each iteration, overshoots to 3 then 4
accumulated bytes, and never returns either. -/
theorem c2_recv_all_diverges :
    (∀ fuel, recv_all fuel 1 [] = none) ∧
    (∀ fuel, recv_all fuel 2 [[10], [20, 30, 40]] = none) := by
  constructor
  · intro fuel
    show recvAllLoop fuel [] 1 [] = none
    exact recvAllLoop_closed 1 fuel [] (by simp)
  · intro fuel
    cases fuel with
    | zero => rfl
    | succ n =>
      show recvAllLoop n [10, 20, 30] 2 [[40]] = none
      exact recvAllLoop_overrun 2 n [10, 20, 30] [[40]] (by simp)

/-- C3: the claim says that in a composed get session a missing filename
produces no local file, a not-found report, and no payload consumption, with
later filenames still processed.  Because the server sends no false flag
(C1), the client desynchronises: here the server holds `[98] ↦ [121, 111]`
and the client requests `[[120], [98]]` where `[120]` is missing; the client
saves the payload of `[98]` under the missing name `[120]`, prints no
not-found message, and then blocks forever, never processing `[98]`. -/
theorem c3_missing_file_desyncs :
    getSession [([98], [121, 111])] [[120], [98]] =
      (⟨[([98], [121, 111])], [1, 0, 0, 0, 1, 2, 0, 0, 0, 121, 111], St.ok⟩,
       ⟨[1, 2, 0, 0, 0, 1, 0, 0, 0, 120, 1, 0, 0, 0, 98],
        [([120], [121, 111])], [], St.hang⟩) := by decide

/-- C4: the claim says that in a composed get session every requested
filename that exists on the server with content `c` ends up as a local file
with content `c`.  Counter-evaluation: the server holds `[97] ↦ "hello"`
and the client requests `[[109], [97]]` where `[109]` is missing; the
client saves "hello" under `[109]`, never creates the file `[97]`, and
blocks forever. -/
theorem c4_existing_file_not_saved :
    getSession [([97], [104, 101, 108, 108, 111])] [[109], [97]] =
      (⟨[([97], [104, 101, 108, 108, 111])],
        [1, 0, 0, 0, 1, 5, 0, 0, 0, 104, 101, 108, 108, 111], St.ok⟩,
       ⟨[1, 2, 0, 0, 0, 1, 0, 0, 0, 109, 1, 0, 0, 0, 97],
        [([109], [104, 101, 108, 108, 111])], [], St.hang⟩) := by decide

/-- C5: in a composed put session every uploaded filename ends up on the
server with exactly its local content, overwriting any prior file of that
name (the final storage is a fold of `setFile` over the uploads, whatever
the prior storage held), and the client's transmission is the direction
byte, a bare packed 4-byte little-endian file count (not the
`send_str_list` framing), then per file the length-prefixed filename, the
packed size and the raw bytes. -/
theorem c5_put_roundtrip (localFS srvFS : Storage) (filenames : List Bytes)
    (hcount : filenames.length < 2147483648)
    (hfiles : ∀ f ∈ filenames, (lookupFile localFS f).isSome ∧
        f.length < 2147483648 ∧
        ((lookupFile localFS f).getD []).length < 2147483648) :
    (put_files localFS (i32le 1) filenames).status = St.ok ∧
    (put_files localFS (i32le 1) filenames).sent =
      send_bool false ++ i32le (filenames.length : Int) ++
        (filenames.map
          (fun f => putFileBytes f ((lookupFile localFS f).getD []))).flatten ∧
    (server_handle_request srvFS (put_files localFS (i32le 1) filenames).sent).status
      = St.ok ∧
    (server_handle_request srvFS (put_files localFS (i32le 1) filenames).sent).st
      = filenames.foldl
          (fun a f => setFile a f ((lookupFile localFS f).getD [])) srvFS ∧
    (∀ f ∈ filenames,
      lookupFile
        (server_handle_request srvFS (put_files localFS (i32le 1) filenames).sent).st f
        = lookupFile localFS f) := by
  have hver : recvAllIdeal (i32le 1) 4 = .ok (i32le 1) [] := by decide
  have hu1 : unpack_i32 (i32le 1) = 1 := by decide
  have hput : put_files localFS (i32le 1) filenames =
      ⟨send_bool false ++ i32le (filenames.length : Int) ++
        (filenames.map
          (fun f => putFileBytes f ((lookupFile localFS f).getD []))).flatten,
       filenames, [], St.ok⟩ := by
    simp only [put_files, hver, hu1, if_neg (by simp : ¬(1 : Int) ≠ 1),
      pack_i32_nat filenames.length hcount, putLoop_eq localFS filenames hfiles]
  have hbody : send_bool false ++ i32le (filenames.length : Int) ++
      (filenames.map
        (fun f => putFileBytes f ((lookupFile localFS f).getD []))).flatten =
      0 :: (i32le (filenames.length : Int) ++
        (filenames.map
          (fun f => putFileBytes f ((lookupFile localFS f).getD []))).flatten) := by
    simp [send_bool]
  have hsrv : server_handle_request srvFS
      (put_files localFS (i32le 1) filenames).sent =
      ⟨filenames.foldl
          (fun a f => setFile a f ((lookupFile localFS f).getD [])) srvFS,
        i32le 1, St.ok⟩ := by
    rw [hput]
    show server_handle_request srvFS _ = _
    rw [hbody]
    simp only [server_handle_request, recvAllIdeal_one,
      unpack_bool, recvAllIdeal_i32, unpack_i32_natCast filenames.length hcount,
      Int.toNat_natCast]
    have := serverPutLoop_parses (fun f => (lookupFile localFS f).getD [])
      filenames srvFS []
      (fun f hf => ⟨(hfiles f hf).2.1, (hfiles f hf).2.2⟩)
    simp only [List.append_nil] at this
    simp [this]
  refine ⟨by rw [hput], by rw [hput], by rw [hsrv], by rw [hsrv], ?_⟩
  intro f hf
  rw [hsrv]
  show lookupFile (filenames.foldl _ srvFS) f = _
  rw [lookupFile_foldl_set (fun f => (lookupFile localFS f).getD []) filenames srvFS f,
    if_pos hf]
  obtain ⟨d, hdeq⟩ := Option.isSome_iff_exists.mp (hfiles f hf).1
  rw [hdeq]
  rfl

/-- C5 witness: upload of the single file `[98]` with content "world" to a
server already holding a file `[98]` with different content. -/
theorem c5_witness :
    (put_files [([98], [119, 111, 114, 108, 100])] (i32le 1) [[98]]).status = St.ok ∧
    (put_files [([98], [119, 111, 114, 108, 100])] (i32le 1) [[98]]).sent =
      send_bool false ++ i32le (([[98]] : List Bytes).length : Int) ++
        (([[98]] : List Bytes).map
          (fun f => putFileBytes f
            ((lookupFile [([98], [119, 111, 114, 108, 100])] f).getD []))).flatten ∧
    (server_handle_request [([98], [120])]
      (put_files [([98], [119, 111, 114, 108, 100])] (i32le 1) [[98]]).sent).status
      = St.ok ∧
    (server_handle_request [([98], [120])]
      (put_files [([98], [119, 111, 114, 108, 100])] (i32le 1) [[98]]).sent).st
      = ([[98]] : List Bytes).foldl
          (fun a f => setFile a f
            ((lookupFile [([98], [119, 111, 114, 108, 100])] f).getD []))
          [([98], [120])] ∧
    (∀ f ∈ ([[98]] : List Bytes),
      lookupFile
        (server_handle_request [([98], [120])]
          (put_files [([98], [119, 111, 114, 108, 100])] (i32le 1) [[98]]).sent).st f
        = lookupFile [([98], [119, 111, 114, 108, 100])] f) :=
  c5_put_roundtrip [([98], [119, 111, 114, 108, 100])] [([98], [120])] [[98]]
    (by decide) (by decide)

/-- C6: for both client operations, when the version received from the
server is not 1, the client sends nothing, performs no filename exchange,
reads and creates no files, and only reports the mismatch. -/
theorem c6_version_gate (v : Int) (hlo : -2147483648 ≤ v) (hhi : v < 2147483648)
    (hne : v ≠ 1) (rest : Bytes) (filenames : List Bytes) (localFS : Storage) :
    get_files (i32le v ++ rest) filenames = ⟨[], [], [Msg.wrongVersion], St.ok⟩ ∧
    put_files localFS (i32le v ++ rest) filenames =
      ⟨[], [], [Msg.wrongVersion], St.ok⟩ := by
  have hu := unpack_i32_i32le v hlo hhi
  constructor
  · simp only [get_files, recvAllIdeal_i32, hu, if_pos hne]
  · simp only [put_files, recvAllIdeal_i32, hu, if_pos hne]

/-- C6 witness: the server reports version 2 while the client expects 1. -/
theorem c6_witness :
    get_files (i32le 2 ++ []) [[97]] = ⟨[], [], [Msg.wrongVersion], St.ok⟩ ∧
    put_files [] (i32le 2 ++ []) [[97]] = ⟨[], [], [Msg.wrongVersion], St.ok⟩ :=
  c6_version_gate 2 (by decide) (by decide) (by decide) [] [[97]] []

/-- C7: for every list of strings, including the empty list,
`send_str_list` succeeds and `recv_str_list` run on the bytes it produced
(followed by any further stream content) returns exactly the same list in
the same order, consuming exactly those bytes. -/
theorem c7_string_list_roundtrip (L : List Bytes) (tail : Bytes)
    (hc : L.length < 2147483648) (h : ∀ s ∈ L, s.length < 2147483648) :
    (send_str_list L).2 = true ∧
    recv_str_list ((send_str_list L).1 ++ tail) = .ok L tail := by
  rw [send_str_list_eq L hc h]
  refine ⟨rfl, ?_⟩
  have h4 : recvAllIdeal ((i32le (L.length : Int) ++ (L.map strEnc).flatten) ++ tail) 4
      = .ok (i32le (L.length : Int)) ((L.map strEnc).flatten ++ tail) := by
    rw [List.append_assoc]
    exact recvAllIdeal_i32 _ _
  simp only [recv_str_list, h4, unpack_i32_natCast L.length hc, Int.toNat_natCast]
  exact recvStrs_flatten L tail h

/-- C7 witness: the two-element list whose first string is "hi" and whose
second string is empty round-trips. -/
theorem c7_witness :
    (send_str_list [[104, 105], []]).2 = true ∧
    recv_str_list ((send_str_list [[104, 105], []]).1 ++ []) =
      .ok [[104, 105], []] [] :=
  c7_string_list_roundtrip [[104, 105], []] [] (by decide) (by decide)

/-- C8: an exception while handling one client connection is caught by the
accept loop, printed, and does not stop the server: the remaining
connections are served exactly as a fresh loop starting from the resulting
storage would serve them. -/
theorem c8_exception_isolation (fs : Storage) (c : Bytes) (cs : List Bytes)
    (h : (server_handle_request fs c).status = St.exn) :
    run_server fs (c :: cs) =
      (ConnEvent.errorPrinted :: (run_server (server_handle_request fs c).st cs).1,
       (run_server (server_handle_request fs c).st cs).2) := by
  simp only [run_server, h]

/-- C8 witness: a put-direction connection announcing one file and then a
negative file size makes the handler raise (`sock.recv` of a negative
count); the loop prints the error and continues. -/
theorem c8_witness :
    run_server [] ([0, 1, 0, 0, 0, 1, 0, 0, 0, 102, 251, 255, 255, 255] :: []) =
      (ConnEvent.errorPrinted ::
        (run_server
          (server_handle_request [] [0, 1, 0, 0, 0, 1, 0, 0, 0, 102, 251, 255, 255, 255]).st
          []).1,
       (run_server
          (server_handle_request [] [0, 1, 0, 0, 0, 1, 0, 0, 0, 102, 251, 255, 255, 255]).st
          []).2) :=
  c8_exception_isolation [] [0, 1, 0, 0, 0, 1, 0, 0, 0, 102, 251, 255, 255, 255] []
    (by decide)

/-- C9: in every get-direction session (first received byte, the direction
flag, nonzero) the server's storage after `server_handle_request` equals the
storage before it: the get branch only reads files. -/
theorem c9_get_direction_preserves_storage (fs : Storage) (b : Nat) (rest : Bytes)
    (hb : b ≠ 0) :
    (server_handle_request fs (b :: rest)).st = fs := by
  have hub : unpack_bool [b] = true := by simp [unpack_bool, hb]
  simp only [server_handle_request, recvAllIdeal_one, hub, if_true]
  rcases hr : recv_str_list rest with ⟨names, s⟩ | _ | _ <;> rfl

/-- C9 witness: a get-direction connection against a nonempty storage. -/
theorem c9_witness :
    (server_handle_request [([97], [120])] (1 :: [])).st = [([97], [120])] :=
  c9_get_direction_preserves_storage [([97], [120])] 1 [] (by decide)

/-- C10: when the 4 count bytes of a string list decode to a negative
little-endian 32-bit integer, `recv_str_list` returns the empty list,
consuming exactly those 4 bytes and nothing further (the Python loop
`range(length)` runs zero iterations for a negative length). -/
theorem c10_negative_count_empty_list (b0 b1 b2 b3 : Nat) (rest : Bytes)
    (h : unpack_i32 [b0, b1, b2, b3] < 0) :
    recv_str_list (b0 :: b1 :: b2 :: b3 :: rest) = .ok [] rest := by
  have h4 : recvAllIdeal (b0 :: b1 :: b2 :: b3 :: rest) 4 =
      .ok [b0, b1, b2, b3] rest := by
    have := recvAllIdeal_append [b0, b1, b2, b3] rest
    simpa using this
  have ht : (unpack_i32 [b0, b1, b2, b3]).toNat = 0 :=
    Int.toNat_of_nonpos (le_of_lt h)
  simp only [recv_str_list, h4, ht, recvStrs]

/-- C10 witness: the bytes 255 255 255 255 decode to -1; the list read stops
there and a trailing byte 7 is left unconsumed on the stream. -/
theorem c10_witness :
    recv_str_list (255 :: 255 :: 255 :: 255 :: [7]) = .ok [] [7] :=
  c10_negative_count_empty_list 255 255 255 255 [7] (by decide)

end FileTransfer
